import Mathlib

/-!
Verification of the domain-status-checker core (domain_checker.py, config.py).

The Python code is shallowly embedded: network I/O is abstracted into oracles
(a URL → outcome oracle for individual HTTP requests, a per-(domain, attempt)
boolean oracle for whole-probe results inside the cycle, a fetch-outcome value
for the domain-source API), wall-clock time is an explicit natural-number
parameter (seconds), and the mutable object state (failure_counts,
unreachable_domains, api failure bookkeeping) is passed explicitly.
The cooperative stop event is modelled as never set: all claims speak about
completed, uninterrupted cycles.
-/

/-! ## Association-list model of the Python dict `self.failure_counts` -/

/-- Lookup in `failure_counts` (`failure_counts.get(d)` / `d in failure_counts`). -/
def lookupFC : List (String × Nat) → String → Option Nat
  | [], _ => none
  | (k, v) :: rest, d => if k = d then some v else lookupFC rest d

/-- Python `failure_counts.get(d, 0)`. -/
def getFC (fc : List (String × Nat)) (d : String) : Nat :=
  (lookupFC fc d).getD 0

/-- Python dict assignment `failure_counts[d] = n`: replace the entry if the
key is present, otherwise append a fresh entry (dicts keep insertion order). -/
def setFC : List (String × Nat) → String → Nat → List (String × Nat)
  | [], d, n => [(d, n)]
  | (k, v) :: rest, d, n =>
    if k = d then (k, n) :: rest else (k, v) :: setFC rest d n

/-- Python `del failure_counts[d]` (guarded by `d in failure_counts` at call sites). -/
def eraseFC : List (String × Nat) → String → List (String × Nat)
  | [], _ => []
  | (k, v) :: rest, d => if k = d then rest else (k, v) :: eraseFC rest d

/-- Python `unreachable_domains.remove(d)` on the set of unreachable domains. -/
def removeSet : List String → String → List String
  | [], _ => []
  | x :: rest, d => if x = d then removeSet rest d else x :: removeSet rest d

/-- Python `unreachable_domains.add(d)` on the set of unreachable domains. -/
def addSet (un : List String) (d : String) : List String :=
  if d ∈ un then un else un ++ [d]

/-! ## HTTP probe: check_domain_status (domain_checker.py lines 103-188)

A single HTTP GET is abstracted by an oracle `String → HttpOutcome` mapping the
requested URL to what the checker observes about the response. -/

/-- The part of a response body that `check_domain_status` inspects on the
health endpoint: either the body fails to parse as JSON
(`json.JSONDecodeError`), or it parses and `health_data.get('status')` yields
the given optional string. A JSON value that is not a dict raises on `.get`
and is caught by the generic handler, which returns the same result as a dict
without a usable status field, so it is modelled as `json none`. -/
inductive Body where
  | notJson
  | json (statusField : Option String)
deriving DecidableEq, Repr

/-- Outcome of one `self._client.get(url)` call as the checker distinguishes
them: a response with a status code and body, `httpx.TimeoutException`,
`httpx.RequestError` (connection/TLS errors), or any other exception. -/
inductive HttpOutcome where
  | resp (status : Nat) (body : Body)
  | timeout
  | connError
  | otherError
deriving DecidableEq, Repr

/-- Line 111: `urls_to_try_root = [f"https://{domain}", f"http://{domain}"]`. -/
def rootUrls (d : String) : List String :=
  ["https://" ++ d, "http://" ++ d]

/-- Line 108. -/
def healthPath : String := "/wp-json/wp-health-check/v1/status"

/-- Line 107: the query parameter is added only when the configured key is
truthy (absent and empty-string keys are both falsy in Python). -/
def apiKeyParam (key : Option String) : String :=
  match key with
  | none => ""
  | some k => if k = "" then "" else "?api_key=" ++ k

/-- Lines 145-146. -/
def healthUrls (key : Option String) (d : String) : List String :=
  ["https://" ++ d ++ healthPath ++ apiKeyParam key,
   "http://" ++ d ++ healthPath ++ apiKeyParam key]

/-- The root-status for-loop, lines 114-137.  Every branch of the loop body
either breaks with success (status < 400) or returns False (status ≥ 400,
timeout, request error, other exception), so the loop never advances to a
later URL; the translation therefore has no recursive call. -/
def rootLoop (o : String → HttpOutcome) : List String → Bool
  | [] => false
  | url :: _rest =>
    match o url with
    | .resp s _ => if s < 400 then true else false
    | .timeout => false
    | .connError => false
    | .otherError => false

/-- The health-endpoint for-loop, lines 148-188.  A 200 response is decided by
the JSON status field; 401 and other ≥ 400 statuses return False, as do all
exceptions; a status in 201..399 (other than 401) matches no branch and falls
through to the next URL; an exhausted loop returns False (line 188). -/
def healthLoop (o : String → HttpOutcome) : List String → Bool
  | [] => false
  | url :: rest =>
    match o url with
    | .resp s b =>
      if s = 200 then
        match b with
        | .json (some st) => if st = "ok" then true else false
        | .json none => false
        | .notJson => false
      else if s = 401 then false
      else if 400 ≤ s then false
      else healthLoop o rest
    | .timeout => false
    | .connError => false
    | .otherError => false

/-- check_domain_status (lines 103-188): root status first; only a root
result below 400 proceeds to the WordPress health-check endpoint. -/
def check_domain_status (o : String → HttpOutcome) (key : Option String)
    (d : String) : Bool :=
  if rootLoop o (rootUrls d) then healthLoop o (healthUrls key d) else false

/-- Modelled from the spec (section 4.1, step 1 and step 3): the root-phase
loop as the specification describes it — errors and non-qualifying statuses
are non-fatal and the loop moves on to the next URL, classifying DOWN only
after exhausting all URLs. Used solely to compare the claimed behaviour with
`rootLoop` above. -/
def rootLoopClaim (o : String → HttpOutcome) : List String → Bool
  | [] => false
  | url :: rest =>
    match o url with
    | .resp s _ => if s < 400 then true else rootLoopClaim o rest
    | .timeout => rootLoopClaim o rest
    | .connError => rootLoopClaim o rest
    | .otherError => rootLoopClaim o rest

/-- Oracle for the C3 counterexample: the https root URL times out while the
http root URL and both health URLs respond 200 with a healthy JSON body. -/
def c3oracle : String → HttpOutcome := fun url =>
  if url = "https://a.com" then .timeout
  else .resp 200 (.json (some "ok"))

/-! ## Domain source: fetch_domains (lines 42-94)

The GET against the configured API is abstracted into the stages the code
distinguishes.  `raise_for_status()` on a non-2xx response raises
`httpx.HTTPStatusError`, which is not an `httpx.RequestError`, so it lands in
the generic handler (line 70), as does a `json()` parse failure. -/

/-- A body that parsed as JSON: either a list of strings (the accepted shape,
line 55) or any other JSON value. -/
inductive FetchBody where
  | strList (domains : List String)
  | badShape
deriving DecidableEq, Repr

/-- Outcome of the API GET as fetch_domains distinguishes it. -/
inductive FetchOutcome where
  | ok (body : FetchBody)
  | requestError
  | otherError
deriving DecidableEq, Repr

/-- A notification sent through `self.notifier` by the fetch path: the
recovery message (line 51) or an API-outage warning (lines 67, 74, 87). -/
inductive Notif where
  | recovery
  | apiOutage
deriving DecidableEq, Repr

/-- The fields `self.last_api_failure` (a timestamp or None, line 25) and
`self.api_failure_notified` (line 26). -/
structure ApiState where
  last_api_failure : Option Nat
  api_failure_notified : Bool
deriving DecidableEq, Repr

/-- Python truthiness of `self.last_api_failure`: None and 0.0 are falsy. -/
def lastFalsy : Option Nat → Bool
  | none => true
  | some t => t == 0

/-- _handle_api_failure (lines 78-94): notify when there is no recorded
failure, or no notification is outstanding, or more than 900 seconds have
passed since the last recorded failure; a suppressed failure changes nothing.
Nat subtraction truncates at 0, matching the float comparison for a
monotone clock (a negative difference is not > 900 either). -/
def handle_api_failure (now : Nat) (st : ApiState) : List Notif × ApiState :=
  if lastFalsy st.last_api_failure || !st.api_failure_notified
      || decide (900 < now - st.last_api_failure.getD 0) then
    ([.apiOutage], ⟨some now, true⟩)
  else
    ([], st)

/-- Result of one fetch_domains call: the returned list, the notifications
sent during the call (in order), and the updated bookkeeping state. -/
structure FetchResult where
  domains : List String
  notifs : List Notif
  state : ApiState
deriving DecidableEq, Repr

/-- fetch_domains (lines 42-76).  On a parsed JSON body the recovery check
(lines 49-53) runs before the shape validation (line 55), so a wrong-shaped
body first emits the recovery message (if one was outstanding) and clears the
outstanding flag, and only then goes through _handle_api_failure.  The two
exception handlers (lines 62-76) notify only when no notification is
outstanding and leave `last_api_failure` untouched. -/
def fetch_domains (out : FetchOutcome) (now : Nat) (st : ApiState) : FetchResult :=
  match out with
  | .ok body =>
    let rnotifs : List Notif := if st.api_failure_notified then [.recovery] else []
    let st1 : ApiState := if st.api_failure_notified then ⟨none, false⟩ else st
    match body with
    | .strList l => ⟨l, rnotifs, st1⟩
    | .badShape =>
      ⟨[], rnotifs ++ (handle_api_failure now st1).1, (handle_api_failure now st1).2⟩
  | .requestError =>
    if !st.api_failure_notified then ⟨[], [.apiOutage], ⟨st.last_api_failure, true⟩⟩
    else ⟨[], [], st⟩
  | .otherError =>
    if !st.api_failure_notified then ⟨[], [.apiOutage], ⟨st.last_api_failure, true⟩⟩
    else ⟨[], [], st⟩

/-! ## Ignore filter: filter_domains (lines 95-101) -/

/-- filter_domains: `[d for d in domains if d not in ignored_set]`. -/
def filter_domains (domains ignored : List String) : List String :=
  domains.filter (fun d => decide (d ∉ ignored))

/-! ## Configuration surface (config.py) and client construction -/

/-- The configuration values the core consumes (config.py lines 25-36);
fields irrelevant to the claims are omitted. -/
structure CoreConfig where
  timeout : Nat
  max_failures : Nat
  verify_ssl : Bool
deriving DecidableEq, Repr

/-- Python str.lower, character by character. -/
def lower (s : String) : String :=
  String.mk (s.data.map Char.toLower)

/-- Config._to_bool (config.py lines 95-104). -/
def to_bool (value : String) : Option Bool :=
  if lower value ∈ ["true", "1", "t", "y", "yes"] then some true
  else if lower value ∈ ["false", "0", "f", "n", "no"] then some false
  else none

/-- The `verify` argument passed to the httpx client in DomainChecker.__init__
(domain_checker.py lines 20-24): the literal False, for every configuration. -/
def client_verify (_cfg : CoreConfig) : Bool :=
  false

/-! ## Cycle orchestrator: check_domains_job (lines 211-343)

One whole-domain probe (a check_domain_status call) is abstracted by an
oracle `probe : String → Nat → Bool` giving the result of the k-th probe of a
domain within the cycle (initial pass is attempt 0, retries are 1, 2, ...).
An exception escaping a gathered task is treated as False by the code
(lines 240-244), which the boolean oracle already covers.  Audit-log lines
are recorded as entries tagged with their kind and domain; the timestamp
prefix is abstracted away. -/

/-- One line appended to the audit log by _log_unreachable / _log_reachable
(lines 191-209). -/
inductive LogEntry where
  | unreachableLine (d : String)
  | reachableLine (d : String)
deriving DecidableEq, Repr

/-- The tracker state owned by DomainChecker: `self.failure_counts` and
`self.unreachable_domains` (lines 34-35). -/
structure TrackerState where
  failure_counts : List (String × Nat)
  unreachable_domains : List String
deriving DecidableEq, Repr

/-- The mutable data a cycle works on: the tracker state plus the cycle-local
`newly_unreachable`, `newly_reachable` lists (lines 234-235), the audit-log
appends of this cycle, and the `failed_domains_for_retry` keys in insertion
order (line 237; the stored counts are never read, and deletions from the
dict are unobservable because the loop iterates over a snapshot). -/
structure CycleAcc where
  fc : List (String × Nat)
  unreachable : List String
  newly_unreachable : List String
  newly_reachable : List String
  log : List LogEntry
  retry_queue : List String
deriving DecidableEq, Repr

/-- The success branch shared by the initial loop (lines 246-253) and the
retry loop (lines 289-298): leave the unreachable set if present (recording
the recovery and its log line), then drop the failure count if present. -/
def apply_success (d : String) (acc : CycleAcc) : CycleAcc :=
  let acc1 :=
    if d ∈ acc.unreachable then
      { acc with unreachable := removeSet acc.unreachable d,
                 newly_reachable := acc.newly_reachable ++ [d],
                 log := acc.log ++ [.reachableLine d] }
    else acc
  if (lookupFC acc1.fc d).isSome then { acc1 with fc := eraseFC acc1.fc d } else acc1

/-- Lines 303-311: once the freshly incremented count has reached
max_failures and the domain is not yet unreachable, mark it, record it as
newly unreachable and append the audit-log line. -/
def mark_if_unreachable (mf : Nat) (d : String) (acc : CycleAcc) : CycleAcc :=
  if mf ≤ getFC acc.fc d ∧ d ∉ acc.unreachable then
    { acc with unreachable := addSet acc.unreachable d,
               newly_unreachable := acc.newly_unreachable ++ [d],
               log := acc.log ++ [.unreachableLine d] }
  else acc

/-- One iteration of the initial-results loop (lines 239-258): on success run
the shared success branch; on failure increment the count and queue the
domain for retries only while the count is still below max_failures. -/
def initial_step (mf : Nat) (acc : CycleAcc) (d : String) (ok : Bool) : CycleAcc :=
  if ok then apply_success d acc
  else
    let acc1 := { acc with fc := setFC acc.fc d (getFC acc.fc d + 1) }
    if getFC acc1.fc d < mf then
      { acc1 with retry_queue := acc1.retry_queue ++ [d] }
    else acc1

/-- The initial pass over the fetched-and-filtered list: the probes are
gathered concurrently but their results are folded into the state in list
order (lines 227-258). -/
def initial_pass (probe : String → Nat → Bool) (mf : Nat) :
    List String → CycleAcc → CycleAcc
  | [], acc => acc
  | d :: rest, acc => initial_pass probe mf rest (initial_step mf acc d (probe d 0))

/-- The per-domain retry while-loop (lines 270-311), encoded with an explicit
fuel bound on the number of remaining iterations.  Each failing iteration
increments the failure count by one and the loop runs only while the count is
below max_failures, so any fuel with mf ≤ fuel + count behaves like the
unbounded loop; `retry_loop_fuel_congr` below proves this insensitivity, and
the call site passes fuel = mf.  `k` is the per-domain attempt index fed to
the probe oracle. -/
def retry_loop (probe : String → Nat → Bool) (mf : Nat) (cur : List String)
    (d : String) : Nat → Nat → CycleAcc → CycleAcc
  | 0, _, acc => acc
  | fuel + 1, k, acc =>
    if getFC acc.fc d < mf ∧ d ∈ cur then
      if probe d k then apply_success d acc
      else
        retry_loop probe mf cur d fuel (k + 1)
          (mark_if_unreachable mf d { acc with fc := setFC acc.fc d (getFC acc.fc d + 1) })
    else acc

/-- The retry pass (lines 264-311): sequentially run the retry loop for each
queued domain, in queue order (the snapshot taken at line 264). -/
def retry_phase (probe : String → Nat → Bool) (mf : Nat) (cur : List String) :
    List String → CycleAcc → CycleAcc
  | [], acc => acc
  | d :: rest, acc => retry_phase probe mf cur rest (retry_loop probe mf cur d mf 1 acc)

/-- Staleness cleanup (lines 313-320): compute the failure-count keys absent
from the current working set, delete their counts, and remove exactly those
domains from the unreachable set. -/
def stale_cleanup (cur : List String) (acc : CycleAcc) : CycleAcc :=
  let stale := (acc.fc.map Prod.fst).filter (fun d => decide (d ∉ cur))
  { acc with fc := acc.fc.filter (fun p => decide (p.1 ∈ cur)),
             unreachable := acc.unreachable.filter (fun d => decide (d ∉ stale)) }

/-- What one completed cycle produces: the new tracker state, the two
transition lists, the audit-log appends, and whether the notifier was invoked
(lines 322-335: exactly when at least one transition list is nonempty). -/
structure CycleResult where
  state : TrackerState
  newly_unreachable : List String
  newly_reachable : List String
  log : List LogEntry
  notifier_called : Bool
deriving DecidableEq, Repr

/-- check_domains_job (lines 211-343) for one completed cycle, with the
fetched list and the ignore set as inputs (lines 220-223 filter the fetched
list and skip the cycle when nothing is left). -/
def check_domains_job (probe : String → Nat → Bool) (mf : Nat)
    (fetched ignored : List String) (st : TrackerState) : CycleResult :=
  let domains_to_check := filter_domains fetched ignored
  if domains_to_check.isEmpty then
    ⟨st, [], [], [], false⟩
  else
    let acc0 : CycleAcc :=
      ⟨st.failure_counts, st.unreachable_domains, [], [], [], []⟩
    let acc1 := initial_pass probe mf domains_to_check acc0
    let acc2 := retry_phase probe mf domains_to_check acc1.retry_queue acc1
    let acc3 := stale_cleanup domains_to_check acc2
    ⟨⟨acc3.fc, acc3.unreachable⟩, acc3.newly_unreachable, acc3.newly_reachable,
      acc3.log, !(acc3.newly_unreachable.isEmpty && acc3.newly_reachable.isEmpty)⟩

/-- Cumulative result of running several consecutive cycles against the same
fetched list and probe oracle (the scheduler loop in main.py re-runs
check_domains_job every check_cycle seconds). -/
structure MultiCycleResult where
  state : TrackerState
  newly_unreachable : List String
  log : List LogEntry
deriving DecidableEq, Repr

/-- Run n consecutive cycles, concatenating each cycle's newly-unreachable
entries and audit-log appends. -/
def run_cycles (probe : String → Nat → Bool) (mf : Nat)
    (fetched ignored : List String) : Nat → TrackerState → MultiCycleResult
  | 0, st => ⟨st, [], []⟩
  | n + 1, st =>
    let r := check_domains_job probe mf fetched ignored st
    let rest := run_cycles probe mf fetched ignored n r.state
    ⟨rest.state, r.newly_unreachable ++ rest.newly_unreachable, r.log ++ rest.log⟩

/-- Everything a cycle tracks about one fixed domain d is the same in the two
accumulators: its failure-count binding, its membership in the unreachable
set, the retry queue and the two transition lists, and the presence of its
audit-log lines.  Steps that process a different domain preserve this
relation. -/
def DFrame (d : String) (a b : CycleAcc) : Prop :=
  lookupFC b.fc d = lookupFC a.fc d ∧
  (d ∈ b.unreachable ↔ d ∈ a.unreachable) ∧
  (d ∈ b.retry_queue ↔ d ∈ a.retry_queue) ∧
  (d ∈ b.newly_unreachable ↔ d ∈ a.newly_unreachable) ∧
  (d ∈ b.newly_reachable ↔ d ∈ a.newly_reachable) ∧
  (LogEntry.unreachableLine d ∈ b.log ↔ LogEntry.unreachableLine d ∈ a.log) ∧
  (LogEntry.reachableLine d ∈ b.log ↔ LogEntry.reachableLine d ∈ a.log)

/-! ## Theorems -/

/-! ### Association-list and set lemmas -/

theorem lookupFC_setFC_self (fc : List (String × Nat)) (d : String) (n : Nat) :
    lookupFC (setFC fc d n) d = some n := by
  induction fc with
  | nil => simp [setFC, lookupFC]
  | cons p rest ih =>
    obtain ⟨k, v⟩ := p
    by_cases h : k = d <;> simp [setFC, lookupFC, h, ih]

theorem getFC_setFC_self (fc : List (String × Nat)) (d : String) (n : Nat) :
    getFC (setFC fc d n) d = n := by
  simp [getFC, lookupFC_setFC_self]

theorem lookupFC_setFC_ne (fc : List (String × Nat)) {d' d : String} (n : Nat)
    (h : d' ≠ d) : lookupFC (setFC fc d' n) d = lookupFC fc d := by
  induction fc with
  | nil => simp [setFC, lookupFC, h]
  | cons p rest ih =>
    obtain ⟨k, v⟩ := p
    by_cases hk : k = d' <;> simp [setFC, lookupFC, hk, ih]
    · subst hk; simp [lookupFC, h]

theorem lookupFC_eraseFC_ne (fc : List (String × Nat)) {d' d : String}
    (h : d' ≠ d) : lookupFC (eraseFC fc d') d = lookupFC fc d := by
  induction fc with
  | nil => simp [eraseFC]
  | cons p rest ih =>
    obtain ⟨k, v⟩ := p
    by_cases hk : k = d' <;> simp [eraseFC, lookupFC, hk, ih]
    · subst hk; simp [lookupFC, h]

theorem mem_removeSet_ne {d' d : String} (un : List String) (h : d' ≠ d) :
    d ∈ removeSet un d' ↔ d ∈ un := by
  induction un with
  | nil => simp [removeSet]
  | cons x rest ih =>
    by_cases hx : x = d' <;> simp [removeSet, hx, ih]
    · subst hx; exact fun hd => absurd hd.symm h

theorem mem_addSet_ne {d' d : String} (un : List String) (h : d' ≠ d) :
    d ∈ addSet un d' ↔ d ∈ un := by
  unfold addSet
  split <;> simp
  exact fun hd => absurd hd.symm h

/-! ### Frame lemmas: processing one domain leaves every other domain alone -/

theorem DFrame.refl (d : String) (a : CycleAcc) : DFrame d a a := by
  simp [DFrame]

theorem DFrame.trans {d : String} {a b c : CycleAcc}
    (h1 : DFrame d a b) (h2 : DFrame d b c) : DFrame d a c := by
  obtain ⟨p1, p2, p3, p4, p5, p6, p7⟩ := h1
  obtain ⟨q1, q2, q3, q4, q5, q6, q7⟩ := h2
  exact ⟨q1.trans p1, q2.trans p2, q3.trans p3, q4.trans p4, q5.trans p5,
    q6.trans p6, q7.trans p7⟩

theorem mark_if_unreachable_fc (mf : Nat) (d : String) (acc : CycleAcc) :
    (mark_if_unreachable mf d acc).fc = acc.fc := by
  unfold mark_if_unreachable
  split <;> rfl

theorem dframe_apply_success {d' d : String} (h : d' ≠ d) (acc : CycleAcc) :
    DFrame d acc (apply_success d' acc) := by
  have hne : d ≠ d' := Ne.symm h
  simp only [apply_success, DFrame]
  split_ifs <;>
    simp_all [lookupFC_eraseFC_ne _ h, mem_removeSet_ne _ h, hne]

theorem dframe_mark {d' d : String} (h : d' ≠ d) (mf : Nat) (acc : CycleAcc) :
    DFrame d acc (mark_if_unreachable mf d' acc) := by
  have hne : d ≠ d' := Ne.symm h
  simp only [mark_if_unreachable, DFrame]
  split_ifs <;> simp_all [mem_addSet_ne _ h, hne]

theorem dframe_initial_step {d' d : String} (h : d' ≠ d) (mf : Nat)
    (acc : CycleAcc) (ok : Bool) :
    DFrame d acc (initial_step mf acc d' ok) := by
  have hne : d ≠ d' := Ne.symm h
  cases ok with
  | true => simpa [initial_step] using dframe_apply_success h acc
  | false =>
    simp only [initial_step, DFrame]
    split_ifs <;> simp_all [lookupFC_setFC_ne _ _ h, hne]

theorem dframe_retry_loop {d' d : String} (h : d' ≠ d)
    (probe : String → Nat → Bool) (mf : Nat) (cur : List String) :
    ∀ fuel k acc, DFrame d acc (retry_loop probe mf cur d' fuel k acc) := by
  intro fuel
  induction fuel with
  | zero => intro k acc; simp [retry_loop, DFrame.refl]
  | succ f ih =>
    intro k acc
    rw [retry_loop]
    split
    · split
      · exact dframe_apply_success h acc
      · refine DFrame.trans ?_ (ih (k + 1) _)
        refine DFrame.trans ?_
          (dframe_mark h mf { acc with fc := setFC acc.fc d' (getFC acc.fc d' + 1) })
        exact ⟨lookupFC_setFC_ne _ _ h, Iff.rfl, Iff.rfl, Iff.rfl, Iff.rfl,
          Iff.rfl, Iff.rfl⟩
    · exact DFrame.refl d acc

theorem initial_pass_append (probe : String → Nat → Bool) (mf : Nat)
    (xs ys : List String) (acc : CycleAcc) :
    initial_pass probe mf (xs ++ ys) acc =
      initial_pass probe mf ys (initial_pass probe mf xs acc) := by
  induction xs generalizing acc with
  | nil => simp [initial_pass]
  | cons x rest ih => simp [initial_pass, ih]

theorem dframe_initial_pass {d : String} (probe : String → Nat → Bool)
    (mf : Nat) :
    ∀ ds acc, d ∉ ds → DFrame d acc (initial_pass probe mf ds acc) := by
  intro ds
  induction ds with
  | nil => intro acc _; simp [initial_pass, DFrame.refl]
  | cons x rest ih =>
    intro acc hds
    rw [List.mem_cons, not_or] at hds
    have hx : x ≠ d := Ne.symm hds.1
    exact DFrame.trans (dframe_initial_step hx mf acc (probe x 0))
      (by simpa [initial_pass] using ih _ hds.2)

theorem dframe_retry_phase {d : String} (probe : String → Nat → Bool)
    (mf : Nat) (cur : List String) :
    ∀ q acc, d ∉ q → DFrame d acc (retry_phase probe mf cur q acc) := by
  intro q
  induction q with
  | nil => intro acc _; simp [retry_phase, DFrame.refl]
  | cons x rest ih =>
    intro acc hq
    rw [List.mem_cons, not_or] at hq
    have hx : x ≠ d := Ne.symm hq.1
    exact DFrame.trans (dframe_retry_loop hx probe mf cur mf 1 acc)
      (by simpa [retry_phase] using ih _ hq.2)

/-! ### The fuel encoding of the retry while-loop is faithful -/

/-- Any fuel large enough to cover the remaining iterations (each failing
iteration increments the count, and the loop runs only while the count is
below max_failures) yields the same result, so `retry_loop` with fuel mf is
the Python while-loop of lines 270-311. -/
theorem retry_loop_fuel_congr (probe : String → Nat → Bool) (mf : Nat)
    (cur : List String) (d : String) :
    ∀ f1 f2 k acc, mf ≤ f1 + getFC acc.fc d → mf ≤ f2 + getFC acc.fc d →
      retry_loop probe mf cur d f1 k acc = retry_loop probe mf cur d f2 k acc := by
  intro f1
  induction f1 with
  | zero =>
    intro f2 k acc h1 h2
    cases f2 with
    | zero => rfl
    | succ g =>
      rw [retry_loop, retry_loop]
      rw [if_neg]
      intro hcond
      omega
  | succ f ih =>
    intro f2 k acc h1 h2
    cases f2 with
    | zero =>
      rw [retry_loop, retry_loop]
      rw [if_neg]
      intro hcond
      omega
    | succ g =>
      rw [retry_loop, retry_loop]
      split
      · split
        · rfl
        · apply ih
          · rw [mark_if_unreachable_fc, getFC_setFC_self]; omega
          · rw [mark_if_unreachable_fc, getFC_setFC_self]; omega
      · rfl

/-! ### Staleness-cleanup lemmas -/

theorem lookupFC_isSome_mem_keys {fc : List (String × Nat)} {d : String}
    (h : (lookupFC fc d).isSome) : d ∈ fc.map Prod.fst := by
  induction fc with
  | nil => simp [lookupFC] at h
  | cons p rest ih =>
    obtain ⟨k, v⟩ := p
    by_cases hk : k = d
    · subst hk; simp
    · simp only [lookupFC, if_neg hk] at h
      simp [ih h]

theorem lookupFC_filter_keep {cur : List String} (fc : List (String × Nat))
    {d : String} (hd : d ∈ cur) :
    lookupFC (fc.filter (fun p => decide (p.1 ∈ cur))) d = lookupFC fc d := by
  induction fc with
  | nil => simp
  | cons p rest ih =>
    obtain ⟨k, v⟩ := p
    by_cases hk : k = d
    · subst hk; simp [List.filter_cons, hd, lookupFC]
    · by_cases hkc : k ∈ cur <;> simp [List.filter_cons, hkc, lookupFC, hk, ih]

theorem lookupFC_filter_drop {cur : List String} (fc : List (String × Nat))
    {d : String} (hd : d ∉ cur) :
    lookupFC (fc.filter (fun p => decide (p.1 ∈ cur))) d = none := by
  induction fc with
  | nil => simp [lookupFC]
  | cons p rest ih =>
    obtain ⟨k, v⟩ := p
    by_cases hkc : k ∈ cur
    · have hk : k ≠ d := fun he => hd (he ▸ hkc)
      simp [List.filter_cons, hkc, lookupFC, hk, ih]
    · simp [List.filter_cons, hkc, ih]

theorem stale_cleanup_mem_unreachable_of_mem {cur : List String}
    (acc : CycleAcc) {d : String} (hd : d ∈ cur) :
    d ∈ (stale_cleanup cur acc).unreachable ↔ d ∈ acc.unreachable := by
  simp only [stale_cleanup, List.mem_filter]
  constructor
  · exact fun h => h.1
  · intro h
    refine ⟨h, ?_⟩
    simp only [List.mem_filter, decide_eq_true_eq]
    intro hmem
    exact absurd hd hmem.2

theorem stale_cleanup_not_mem_unreachable {cur : List String}
    (acc : CycleAcc) {d : String} (hd : d ∉ cur)
    (hkey : (lookupFC acc.fc d).isSome) :
    d ∉ (stale_cleanup cur acc).unreachable := by
  simp only [stale_cleanup, List.mem_filter, decide_eq_true_eq]
  intro h
  exact h.2 ⟨lookupFC_isSome_mem_keys hkey, hd⟩

theorem stale_cleanup_not_mem_unreachable_of_not_mem {cur : List String}
    (acc : CycleAcc) {d : String} (hun : d ∉ acc.unreachable) :
    d ∉ (stale_cleanup cur acc).unreachable := by
  simp only [stale_cleanup, List.mem_filter]
  intro h
  exact hun h.1

/-! ### Splitting a list around its unique occurrence of an element -/

theorem count_eq_one_split {d : String} {l : List String}
    (h : l.count d = 1) : ∃ l1 l2, l = l1 ++ d :: l2 ∧ d ∉ l1 ∧ d ∉ l2 := by
  induction l with
  | nil => simp at h
  | cons x rest ih =>
    by_cases hx : x = d
    · subst hx
      have hzero : rest.count x = 0 := by
        rw [List.count_cons_self] at h
        omega
      exact ⟨[], rest, rfl, by simp, List.count_eq_zero.mp hzero⟩
    · have hrest : rest.count d = 1 := by
        rwa [List.count_cons_of_ne (Ne.symm hx)] at h
      obtain ⟨l1, l2, heq, h1, h2⟩ := ih hrest
      exact ⟨x :: l1, l2, by simp [heq], by simp [h1, Ne.symm hx], h2⟩

/-! ### One cycle seen from a domain that is already unreachable -/

/-- Unfolding of check_domains_job when the working list is nonempty. -/
theorem check_domains_job_eq (probe : String → Nat → Bool) (mf : Nat)
    (fetched ignored : List String) (st : TrackerState)
    (hne : (filter_domains fetched ignored).isEmpty = false) :
    check_domains_job probe mf fetched ignored st =
      (let ds := filter_domains fetched ignored
       let acc0 : CycleAcc :=
         ⟨st.failure_counts, st.unreachable_domains, [], [], [], []⟩
       let acc1 := initial_pass probe mf ds acc0
       let acc2 := retry_phase probe mf ds acc1.retry_queue acc1
       let acc3 := stale_cleanup ds acc2
       ⟨⟨acc3.fc, acc3.unreachable⟩, acc3.newly_unreachable, acc3.newly_reachable,
        acc3.log, !(acc3.newly_unreachable.isEmpty && acc3.newly_reachable.isEmpty)⟩) := by
  simp only [check_domains_job, hne, Bool.false_eq_true, if_false]

/-- An initial-pass failure whose domain already has at least max_failures
recorded only bumps the count: the domain is not queued for retries
(lines 254-258). -/
theorem initial_step_fail_sat {mf : Nat} {acc : CycleAcc} {d : String}
    (h : mf ≤ getFC acc.fc d) :
    initial_step mf acc d false =
      { acc with fc := setFC acc.fc d (getFC acc.fc d + 1) } := by
  have hlt : ¬ getFC (setFC acc.fc d (getFC acc.fc d + 1)) d < mf := by
    rw [getFC_setFC_self]; omega
  simp [initial_step, hlt]

/-- One completed cycle, watched from a domain d that is already in the
unreachable set with a failure count of at least max_failures, appears once
in the working list, and fails its initial probe: the cycle only increments
the count, d stays unreachable, and no transition entry or audit-log line is
produced for d. -/
theorem cycle_step_unreachable_persists
    (probe : String → Nat → Bool) (mf : Nat) (fetched ignored : List String)
    (st : TrackerState) (d : String) (c : Nat)
    (hocc : (filter_domains fetched ignored).count d = 1)
    (hfc : lookupFC st.failure_counts d = some c)
    (hmf : mf ≤ c)
    (hun : d ∈ st.unreachable_domains)
    (hp0 : probe d 0 = false) :
    lookupFC (check_domains_job probe mf fetched ignored st).state.failure_counts d
        = some (c + 1) ∧
    d ∈ (check_domains_job probe mf fetched ignored st).state.unreachable_domains ∧
    d ∉ (check_domains_job probe mf fetched ignored st).newly_unreachable ∧
    d ∉ (check_domains_job probe mf fetched ignored st).newly_reachable ∧
    LogEntry.unreachableLine d ∉ (check_domains_job probe mf fetched ignored st).log ∧
    LogEntry.reachableLine d ∉ (check_domains_job probe mf fetched ignored st).log := by
  obtain ⟨l1, l2, hsplit, hl1, hl2⟩ := count_eq_one_split hocc
  have hdcur : d ∈ filter_domains fetched ignored := by rw [hsplit]; simp
  have hne : (filter_domains fetched ignored).isEmpty = false := by
    rw [hsplit]; cases l1 <;> simp
  rw [check_domains_job_eq probe mf fetched ignored st hne]
  set ds := filter_domains fetched ignored with hds
  set acc0 : CycleAcc :=
    ⟨st.failure_counts, st.unreachable_domains, [], [], [], []⟩ with hacc0
  -- the initial pass, split around the unique occurrence of d
  have hpass : initial_pass probe mf ds acc0 =
      initial_pass probe mf l2
        (initial_step mf (initial_pass probe mf l1 acc0) d false) := by
    rw [hsplit, show l1 ++ d :: l2 = (l1 ++ [d]) ++ l2 by simp,
      initial_pass_append, initial_pass_append]
    simp [initial_pass, hp0]
  have hA : DFrame d acc0 (initial_pass probe mf l1 acc0) :=
    dframe_initial_pass probe mf l1 acc0 hl1
  set accA := initial_pass probe mf l1 acc0 with haccA
  obtain ⟨a1, a2, a3, a4, a5, a6, a7⟩ := hA
  have hfcA : lookupFC accA.fc d = some c := by rw [a1]; exact hfc
  have hgA : getFC accA.fc d = c := by simp [getFC, hfcA]
  have hstep : initial_step mf accA d false =
      { accA with fc := setFC accA.fc d (getFC accA.fc d + 1) } :=
    initial_step_fail_sat (by omega)
  set accB : CycleAcc :=
    { accA with fc := setFC accA.fc d (getFC accA.fc d + 1) } with haccB
  have hfcB : lookupFC accB.fc d = some (c + 1) := by
    simp [haccB, lookupFC_setFC_self, hgA]
  have hC : DFrame d accB (initial_pass probe mf l2 accB) :=
    dframe_initial_pass probe mf l2 accB hl2
  set accC := initial_pass probe mf l2 accB with haccC
  obtain ⟨c1, c2, c3, c4, c5, c6, c7⟩ := hC
  have hacc1 : initial_pass probe mf ds acc0 = accC := by
    rw [hpass, hstep]
  -- facts about the accumulator after the initial pass
  have hfcC : lookupFC accC.fc d = some (c + 1) := by rw [c1]; exact hfcB
  have hunC : d ∈ accC.unreachable := by
    rw [c2]; simp [haccB]; rw [a2]; exact hun
  have hrqC : d ∉ accC.retry_queue := by
    rw [c3]; simp [haccB]; rw [a3]; simp [hacc0]
  have hnuC : d ∉ accC.newly_unreachable := by
    rw [c4]; simp [haccB]; rw [a4]; simp [hacc0]
  have hnrC : d ∉ accC.newly_reachable := by
    rw [c5]; simp [haccB]; rw [a5]; simp [hacc0]
  have hluC : LogEntry.unreachableLine d ∉ accC.log := by
    rw [c6]; simp [haccB]; rw [a6]; simp [hacc0]
  have hlrC : LogEntry.reachableLine d ∉ accC.log := by
    rw [c7]; simp [haccB]; rw [a7]; simp [hacc0]
  -- the retry phase never touches d
  have hR : DFrame d accC (retry_phase probe mf ds accC.retry_queue accC) :=
    dframe_retry_phase probe mf ds accC.retry_queue accC hrqC
  set accD := retry_phase probe mf ds accC.retry_queue accC with haccD
  obtain ⟨r1, r2, r3, r4, r5, r6, r7⟩ := hR
  have hfcD : lookupFC accD.fc d = some (c + 1) := by rw [r1]; exact hfcC
  have hunD : d ∈ accD.unreachable := r2.mpr hunC
  have hnuD : d ∉ accD.newly_unreachable := fun hx => hnuC (r4.mp hx)
  have hnrD : d ∉ accD.newly_reachable := fun hx => hnrC (r5.mp hx)
  have hluD : LogEntry.unreachableLine d ∉ accD.log := fun hx => hluC (r6.mp hx)
  have hlrD : LogEntry.reachableLine d ∉ accD.log := fun hx => hlrC (r7.mp hx)
  -- the staleness cleanup keeps d (it is in the working list)
  refine ⟨?_, ?_, ?_, ?_, ?_, ?_⟩
  · simp only []
    rw [hacc1]
    exact (lookupFC_filter_keep accD.fc hdcur).trans hfcD
  · simp only []
    rw [hacc1]
    exact (stale_cleanup_mem_unreachable_of_mem accD hdcur).mpr hunD
  · simp only []
    rw [hacc1]
    exact hnuD
  · simp only []
    rw [hacc1]
    exact hnrD
  · simp only []
    rw [hacc1]
    exact hluD
  · simp only []
    rw [hacc1]
    exact hlrD

/-! ### Claim theorems -/

/-- C1: the claim says a failed probe that brings a domain's failure count up
to max_failures (in the initial pass or in a retry) marks the domain
unreachable, records one newly-unreachable notification entry and appends one
audit-log line, and that with max_failures = 1 and an always-DOWN probe one
cycle over the fetched list containing a.com ends with the unreachable set
holding a.com.  This theorem evaluates the code at exactly that input: the
initial pass only queues domains whose count is still below max_failures and
never marks, so the cycle ends with the count at 1, an empty unreachable set,
no notification entry, no audit-log append, and the notifier never called —
contradicting the claim. -/
theorem C1_reach_max_in_initial_pass_is_not_marked :
    check_domains_job (fun _ _ => false) 1 ["a.com"] [] ⟨[], []⟩ =
      ⟨⟨[("a.com", 1)], []⟩, [], [], [], false⟩ := by
  decide

/-- C2: the claim states the invariant that after every completed cycle a
domain is in the unreachable set iff its failure count exists and is at least
max_failures.  This theorem evaluates the code on a cycle with
max_failures = 1, fetched list containing only a.com, an always-DOWN probe and
an empty starting state: afterwards the failure count of a.com is 1, which is
at least max_failures, yet a.com is not in the unreachable set — the
right-to-left direction of the claimed invariant fails. -/
theorem C2_invariant_fails_after_cycle_with_max_failures_one :
    lookupFC (check_domains_job (fun _ _ => false) 1 ["a.com"] []
        ⟨[], []⟩).state.failure_counts "a.com" = some 1 ∧
    1 ≤ 1 ∧
    "a.com" ∉ (check_domains_job (fun _ _ => false) 1 ["a.com"] []
        ⟨[], []⟩).state.unreachable_domains := by
  decide

/-- C3 (counterexample): the claim says a timeout on one root attempt is
non-fatal and the probe moves on to the next URL, classifying DOWN only after
exhausting all URLs.  Under an oracle where the https root URL times out and
the http root URL answers 200 (with healthy health endpoints), the code
classifies the domain DOWN, while the loop the claim describes would reach
the qualifying http response and succeed. -/
theorem C3_counterexample :
    check_domain_status c3oracle none "a.com" = false ∧
    c3oracle "https://a.com" = .timeout ∧
    c3oracle "http://a.com" = .resp 200 (.json (some "ok")) ∧
    rootLoopClaim c3oracle (rootUrls "a.com") = true := by
  decide

/-- C3 (amended): the probe consults only the https root URL: a response with
status below 400 proceeds to the health-check phase, and any other outcome —
status at least 400, timeout, connection or TLS error, or any other
exception — classifies the domain DOWN immediately, so the http root URL is
never attempted. -/
theorem C3_amended_root_check_uses_only_https (o : String → HttpOutcome)
    (key : Option String) (d : String) :
    check_domain_status o key d =
      (match o ("https://" ++ d) with
       | .resp s _ => if s < 400 then healthLoop o (healthUrls key d) else false
       | _ => false) := by
  cases ho : o ("https://" ++ d) with
  | resp s b => by_cases hs : s < 400 <;>
      simp [check_domain_status, rootUrls, rootLoop, ho, hs]
  | timeout => simp [check_domain_status, rootUrls, rootLoop, ho]
  | connError => simp [check_domain_status, rootUrls, rootLoop, ho]
  | otherError => simp [check_domain_status, rootUrls, rootLoop, ho]

/-- C4 (counterexample): the claim says that for every kind of fetch failure
a notification is emitted on the first failure, suppressed while one is
outstanding and less than 15 minutes old, and emitted again after more than
15 minutes.  Both halves fail on the code: a network error 960 seconds after
a notified network error is still suppressed (the except-branches never
re-notify), and a wrong-shaped body only 60 seconds after a notified
wrong-shape failure is not suppressed — it even emits a spurious recovery
message first, because the recovery check runs before the shape check. -/
theorem C4_counterexample :
    (fetch_domains .requestError 100 ⟨none, false⟩).notifs = [.apiOutage] ∧
    (fetch_domains .requestError 100 ⟨none, false⟩).state = ⟨none, true⟩ ∧
    (fetch_domains .requestError 1060 ⟨none, true⟩).notifs = [] ∧
    (fetch_domains (.ok .badShape) 100 ⟨none, false⟩).notifs = [.apiOutage] ∧
    (fetch_domains (.ok .badShape) 100 ⟨none, false⟩).state = ⟨some 100, true⟩ ∧
    (fetch_domains (.ok .badShape) 160 ⟨some 100, true⟩).notifs =
      [.recovery, .apiOutage] := by
  decide

/-- C4 (amended): an outage notification is emitted exactly when either the
failure is a network error or another exception (non-2xx, unparsable body)
and no notification is outstanding — with no time-based re-emission — or the
failure is a well-formed JSON body of the wrong shape, which always emits,
because the recovery path has already cleared the outstanding flag before
_handle_api_failure runs its cooldown check. -/
theorem C4_amended_outage_emission_characterization (out : FetchOutcome)
    (now : Nat) (st : ApiState) :
    Notif.apiOutage ∈ (fetch_domains out now st).notifs ↔
      (((out = .requestError ∨ out = .otherError) ∧
        st.api_failure_notified = false) ∨
       out = .ok .badShape) := by
  cases out with
  | ok body =>
    cases body <;> cases h : st.api_failure_notified <;>
      simp [fetch_domains, handle_api_failure, lastFalsy, h]
  | requestError =>
    cases h : st.api_failure_notified <;> simp [fetch_domains, h]
  | otherError =>
    cases h : st.api_failure_notified <;> simp [fetch_domains, h]

/-- C5: with max_failures = 3 and an always-DOWN probe, one cycle takes a
fresh domain through FAILING with count 1 (the initial pass, which also
queues it for retries), FAILING with count 2 (after the first retry even a
count of 2 does not mark it), and finally UNREACHABLE at count 3, producing
exactly one newly-unreachable entry, one audit-log append and one notifier
call.  The retry_interval only paces the sleeps and does not affect the
transition sequence. -/
theorem C5_escalation_to_unreachable_in_one_cycle :
    initial_pass (fun _ _ => false) 3 ["d.com"] ⟨[], [], [], [], [], []⟩ =
      ⟨[("d.com", 1)], [], [], [], [], ["d.com"]⟩ ∧
    mark_if_unreachable 3 "d.com" ⟨[("d.com", 2)], [], [], [], [], ["d.com"]⟩ =
      ⟨[("d.com", 2)], [], [], [], [], ["d.com"]⟩ ∧
    check_domains_job (fun _ _ => false) 3 ["d.com"] [] ⟨[], []⟩ =
      ⟨⟨[("d.com", 3)], ["d.com"]⟩, ["d.com"], [],
        [LogEntry.unreachableLine "d.com"], true⟩ := by
  decide

/-- C6: fetch_domains is a total function of the fetch outcome (it never
raises to its caller); it returns the fetched list exactly when the body is a
JSON list of strings, and the empty list on every failure — network error,
other exception (non-2xx, unparsable body) or wrong-shaped body — signalling
the failure only through the notification side channel. -/
theorem C6_fetch_domains_always_returns_list (out : FetchOutcome) (now : Nat)
    (st : ApiState) :
    (fetch_domains out now st).domains =
      (match out with
       | .ok (.strList l) => l
       | _ => ([] : List String)) := by
  cases out with
  | ok body => cases body <;> simp [fetch_domains]
  | requestError =>
    cases h : st.api_failure_notified <;> simp [fetch_domains, h]
  | otherError =>
    cases h : st.api_failure_notified <;> simp [fetch_domains, h]

/-- C7: filter_domains returns exactly the input elements that are not in the
ignore set, in input order (the result is a sublist of the input), and is
idempotent: filtering an already-filtered list with the same ignore set
returns it unchanged. -/
theorem C7_filter_domains_exact_ordered_idempotent (l s : List String) :
    (∀ d, d ∈ filter_domains l s ↔ d ∈ l ∧ d ∉ s) ∧
    (filter_domains l s).Sublist l ∧
    filter_domains (filter_domains l s) s = filter_domains l s := by
  refine ⟨?_, List.filter_sublist l, ?_⟩
  · intro d
    simp [filter_domains]
  · simp [filter_domains, List.filter_filter]

/-- C9: the claim says the long-lived HTTP client verifies certificates
exactly when the verify_ssl configuration value is true.  The configuration
surface does parse the toggle (config.py line 36, via _to_bool), but
DomainChecker.__init__ constructs the client with the literal verify=False,
so with verify_ssl = true the client still does not verify — the toggle is
never consumed by the core. -/
theorem C9_client_ignores_verify_ssl :
    (CoreConfig.mk 30 3 true).verify_ssl = true ∧
    to_bool "true" = some true ∧
    client_verify (CoreConfig.mk 30 3 true) = false := by
  decide

/-- C10: a domain that is already in the unreachable set and keeps failing
its probes in later cycles generates no further newly-unreachable
notification entry and no further audit-log line in any of those cycles,
while its failure count keeps growing without bound: after n further cycles
it has increased by exactly n, each cycle adding 1 during the initial pass
(the domain is never retried because its count is no longer below
max_failures). -/
theorem C10_unreachable_stays_silent_count_unbounded
    (probe : String → Nat → Bool) (mf : Nat) (fetched ignored : List String)
    (st : TrackerState) (d : String) (c : Nat) (n : Nat)
    (hocc : (filter_domains fetched ignored).count d = 1)
    (hfc : lookupFC st.failure_counts d = some c)
    (hmf : mf ≤ c)
    (hun : d ∈ st.unreachable_domains)
    (hprobe : ∀ k, probe d k = false) :
    lookupFC (run_cycles probe mf fetched ignored n st).state.failure_counts d
        = some (c + n) ∧
    d ∈ (run_cycles probe mf fetched ignored n st).state.unreachable_domains ∧
    d ∉ (run_cycles probe mf fetched ignored n st).newly_unreachable ∧
    LogEntry.unreachableLine d ∉ (run_cycles probe mf fetched ignored n st).log ∧
    LogEntry.reachableLine d ∉ (run_cycles probe mf fetched ignored n st).log := by
  induction n generalizing st c with
  | zero =>
    refine ⟨?_, hun, by simp [run_cycles], by simp [run_cycles], by simp [run_cycles]⟩
    simpa [run_cycles] using hfc
  | succ m ih =>
    obtain ⟨s1, s2, s3, s4, s5, s6⟩ := cycle_step_unreachable_persists probe mf
      fetched ignored st d c hocc hfc hmf hun (hprobe 0)
    obtain ⟨t1, t2, t3, t4, t5⟩ :=
      ih (check_domains_job probe mf fetched ignored st).state (c + 1) s1
        (by omega) s2
    simp only [run_cycles]
    refine ⟨?_, t2, ?_, ?_, ?_⟩
    · rw [t1]
      congr 1
      omega
    · simp only [List.mem_append, not_or]
      exact ⟨s3, t3⟩
    · simp only [List.mem_append, not_or]
      exact ⟨s5, t4⟩
    · simp only [List.mem_append, not_or]
      exact ⟨s6, t5⟩

/-- Witness for C10 at a concrete input: a.com is unreachable with count 2,
max_failures is 2, the probe always fails; after three further cycles the
count is 5, the domain is still unreachable, and no newly-unreachable entry
or audit-log line was produced in any of the three cycles. -/
theorem C10_witness :
    ((filter_domains ["a.com"] []).count "a.com" = 1 ∧
     lookupFC [("a.com", 2)] "a.com" = some 2 ∧
     "a.com" ∈ (["a.com"] : List String)) ∧
    (lookupFC (run_cycles (fun _ _ => false) 2 ["a.com"] [] 3
        ⟨[("a.com", 2)], ["a.com"]⟩).state.failure_counts "a.com" = some 5 ∧
     "a.com" ∈ (run_cycles (fun _ _ => false) 2 ["a.com"] [] 3
        ⟨[("a.com", 2)], ["a.com"]⟩).state.unreachable_domains ∧
     "a.com" ∉ (run_cycles (fun _ _ => false) 2 ["a.com"] [] 3
        ⟨[("a.com", 2)], ["a.com"]⟩).newly_unreachable ∧
     LogEntry.unreachableLine "a.com" ∉ (run_cycles (fun _ _ => false) 2
        ["a.com"] [] 3 ⟨[("a.com", 2)], ["a.com"]⟩).log ∧
     LogEntry.reachableLine "a.com" ∉ (run_cycles (fun _ _ => false) 2
        ["a.com"] [] 3 ⟨[("a.com", 2)], ["a.com"]⟩).log) :=
  ⟨⟨by decide, by decide, by decide⟩,
    C10_unreachable_stays_silent_count_unbounded (fun _ _ => false) 2 ["a.com"]
      [] ⟨[("a.com", 2)], ["a.com"]⟩ "a.com" 2 3 (by decide) (by decide)
      (by decide) (by decide) (fun _ => rfl)⟩

/-- C8: the staleness cleanup at the end of a cycle removes the failure-count
entry of every domain absent from the current working set and removes such a
domain from the unreachable set (assuming the state is well formed: every
unreachable domain has a failure-count entry, which the tracker maintains);
it makes no notification entry and appends no log line; and for every domain
present in the working set it leaves the failure-count binding and the
unreachable-set membership unchanged. -/
theorem C8_stale_cleanup_removes_absent_keeps_present_silent
    (cur : List String) (acc : CycleAcc) (d : String)
    (hwf : ∀ x ∈ acc.unreachable, (lookupFC acc.fc x).isSome) :
    ((stale_cleanup cur acc).newly_unreachable = acc.newly_unreachable ∧
     (stale_cleanup cur acc).newly_reachable = acc.newly_reachable ∧
     (stale_cleanup cur acc).log = acc.log) ∧
    (d ∉ cur →
      lookupFC (stale_cleanup cur acc).fc d = none ∧
      d ∉ (stale_cleanup cur acc).unreachable) ∧
    (d ∈ cur →
      lookupFC (stale_cleanup cur acc).fc d = lookupFC acc.fc d ∧
      (d ∈ (stale_cleanup cur acc).unreachable ↔ d ∈ acc.unreachable)) := by
  refine ⟨⟨rfl, rfl, rfl⟩, ?_, ?_⟩
  · intro hd
    refine ⟨lookupFC_filter_drop acc.fc hd, ?_⟩
    by_cases hun : d ∈ acc.unreachable
    · exact stale_cleanup_not_mem_unreachable acc hd (hwf d hun)
    · exact stale_cleanup_not_mem_unreachable_of_not_mem acc hun
  · intro hd
    exact ⟨lookupFC_filter_keep acc.fc hd, stale_cleanup_mem_unreachable_of_mem acc hd⟩

/-- Witness for C8 at a concrete input: a state tracking a.com (count 1) and
b.com (count 3, unreachable) cleaned against the working set containing only
a.com: b.com loses its count and its unreachable membership with no entries
produced, while the bindings of a.com are untouched. -/
theorem C8_witness :
    (∀ x ∈ (⟨[("a.com", 1), ("b.com", 3)], ["b.com"], [], [], [],
        []⟩ : CycleAcc).unreachable,
      (lookupFC (⟨[("a.com", 1), ("b.com", 3)], ["b.com"], [], [], [],
        []⟩ : CycleAcc).fc x).isSome) ∧
    (((stale_cleanup ["a.com"] ⟨[("a.com", 1), ("b.com", 3)], ["b.com"], [],
        [], [], []⟩).newly_unreachable = [] ∧
      (stale_cleanup ["a.com"] ⟨[("a.com", 1), ("b.com", 3)], ["b.com"], [],
        [], [], []⟩).newly_reachable = [] ∧
      (stale_cleanup ["a.com"] ⟨[("a.com", 1), ("b.com", 3)], ["b.com"], [],
        [], [], []⟩).log = []) ∧
     ("b.com" ∉ (["a.com"] : List String) →
       lookupFC (stale_cleanup ["a.com"] ⟨[("a.com", 1), ("b.com", 3)],
         ["b.com"], [], [], [], []⟩).fc "b.com" = none ∧
       "b.com" ∉ (stale_cleanup ["a.com"] ⟨[("a.com", 1), ("b.com", 3)],
         ["b.com"], [], [], [], []⟩).unreachable) ∧
     ("b.com" ∈ (["a.com"] : List String) →
       lookupFC (stale_cleanup ["a.com"] ⟨[("a.com", 1), ("b.com", 3)],
         ["b.com"], [], [], [], []⟩).fc "b.com" =
         lookupFC (⟨[("a.com", 1), ("b.com", 3)], ["b.com"], [], [], [],
           []⟩ : CycleAcc).fc "b.com" ∧
       ("b.com" ∈ (stale_cleanup ["a.com"] ⟨[("a.com", 1), ("b.com", 3)],
           ["b.com"], [], [], [], []⟩).unreachable ↔
         "b.com" ∈ (⟨[("a.com", 1), ("b.com", 3)], ["b.com"], [], [], [],
           []⟩ : CycleAcc).unreachable))) :=
  ⟨by decide,
    C8_stale_cleanup_removes_absent_keeps_present_silent ["a.com"]
      ⟨[("a.com", 1), ("b.com", 3)], ["b.com"], [], [], [], []⟩ "b.com"
      (by decide)⟩
